import Mathlib

/-!
Verification of the `CollectiveSelectFolder` HLO pass
(`xla/service/gpu/transforms/collective_select_folder.cc`).

The pass is embedded shallowly.  A computation is an arena (`List Instr`) of
instructions addressed by `Nat` handles; operand lists hold handles into the
same arena, mirroring the pointer graph of the HLO IR.  A module is a list of
computations.  The pass walks every instruction of every computation, matches
`collective-permute(select(compare(replica-or-partition-id, constant), t, f))`,
statically evaluates the compare over the collective-permute's
source-target pairs, and, when the predicate is uniform over all sources,
replaces the collective-permute's data operand with the chosen branch.
-/

set_option maxHeartbeats 1000000

namespace CollectiveSelectFolderModel

/-- The opcodes this pass inspects.  All opcodes that the pass does not treat
specially behave identically to `kOther`. -/
inductive HloOpcode where
  | kSelect
  | kBroadcast
  | kCompare
  | kConstant
  | kReplicaId
  | kPartitionId
  | kCollectivePermute
  | kOther
deriving DecidableEq

/-- `Comparison::Direction` from `xla/comparison_util.h`. -/
inductive Direction where
  | kEq
  | kNe
  | kGe
  | kGt
  | kLe
  | kLt
deriving DecidableEq

/-- The two group modes this pass can observe (spec section 3: the enumeration
describing which identity numbering space a collective addresses). -/
inductive CollectiveOpGroupMode where
  | kCrossReplica
  | kCrossPartition
deriving DecidableEq

/-- An HLO instruction, restricted to the fields this pass reads:
opcode, operand handles, the compare direction (meaningful for `kCompare`),
the first integer of the literal (meaningful for `kConstant`; `none` models a
literal from which `GetFirstInteger` extracts nothing), and the
source-target pairs plus channel id (meaningful for `kCollectivePermute`). -/
structure Instr where
  opcode : HloOpcode
  operands : List Nat
  direction : Direction
  literal : Option Int
  sourceTargetPairs : List (Int × Int)
  channelId : Option Int
deriving DecidableEq

/-- A computation: an arena of instructions addressed by handles. -/
abbrev Arena := List Instr

/-- A module: the computations the pass iterates over. -/
abbrev Module := List Arena

/-- `struct FoldableSelect` from the source: comparison direction, constant,
implied group mode, and handles of the select's true and false operands. -/
structure FoldableSelect where
  cmp_direction : Direction
  constant_id : Int
  collective_mode : CollectiveOpGroupMode
  true_operand : Nat
  false_operand : Nat
deriving DecidableEq

/-- `MatchFoldableSelect` from the source.  Matches
`select((broadcast)? (compare(replica-or-partition-id, constant)), t, f)` and
returns the match record, or `none`.  Lookups of operands that the C++ IR
guarantees to exist (fixed arity per opcode) are modelled with `Option`
lookups whose failure also yields no-match. -/
def MatchFoldableSelect (arena : Arena) (selIdx : Nat) : Option FoldableSelect :=
  match arena[selIdx]? with
  | none => none
  | some sel =>
    if sel.opcode ≠ HloOpcode.kSelect then none else
    match sel.operands[0]? with
    | none => none
    | some pIdx =>
      match arena[pIdx]? with
      | none => none
      | some p0 =>
        -- Match select predicate (may be broadcasted): unwrap one broadcast.
        match (if p0.opcode = HloOpcode.kBroadcast then p0.operands[0]? else some pIdx) with
        | none => none
        | some cmpIdx =>
          match arena[cmpIdx]? with
          | none => none
          | some cmp =>
            if cmp.opcode ≠ HloOpcode.kCompare then none else
            match cmp.operands[0]?, cmp.operands[1]? with
            | some idIdx, some cIdx =>
              match arena[idIdx]?, arena[cIdx]? with
              | some idOp, some constOp =>
                -- Match replica-id or partition-id.
                match (if idOp.opcode = HloOpcode.kReplicaId then
                         some CollectiveOpGroupMode.kCrossReplica
                       else if idOp.opcode = HloOpcode.kPartitionId then
                         some CollectiveOpGroupMode.kCrossPartition
                       else none) with
                | none => none
                | some collectiveMode =>
                  -- Match constant.
                  if constOp.opcode ≠ HloOpcode.kConstant then none else
                  match constOp.literal with
                  | none => none
                  | some constantId =>
                    match sel.operands[1]?, sel.operands[2]? with
                    | some tIdx, some fIdx =>
                      some ⟨cmp.direction, constantId, collectiveMode, tIdx, fIdx⟩
                    | _, _ => none
              | _, _ => none
            | _, _ => none

/-- The predicate lambda inside `StaticallyEvaluatePredicateForAllSourceIDs`:
`cmp_direction == kEq ? src_id == constant_id : src_id != constant_id`.
The `assert(kEq || kNe)` of the source is a debug-build no-op and has no
counterpart here. -/
def predicateEval (fs : FoldableSelect) (pair : Int × Int) : Bool :=
  if fs.cmp_direction = Direction.kEq then pair.1 == fs.constant_id
  else pair.1 != fs.constant_id

/-- `StaticallyEvaluatePredicateForAllSourceIDs` from the source: `none` for an
empty table; otherwise the candidate value at the first pair, provided every
remaining pair agrees with it, and `none` on any disagreement. -/
def StaticallyEvaluatePredicateForAllSourceIDs (fs : FoldableSelect)
    (pairs : List (Int × Int)) : Option Bool :=
  match pairs with
  | [] => none
  | p :: rest =>
    let result_candidate := predicateEval fs p
    if rest.all (fun q => predicateEval fs q == result_candidate) then
      some result_candidate
    else none

/-- The group-mode derivation function the pass calls.
Modelled from the spec: the repository does not include
`GetCollectiveOpGroupMode` (declared in `xla/service/collective_ops_utils.h`);
per the spec (sections 3, 4.2 and 6) the group mode is derived from the
presence of a channel id and the `use_global_device_ids` override flag, a
channel id meaning cross-partition addressing and its absence cross-replica,
and the contradictory combination (override flag set without a channel id) is
a malformed configuration reported as an error. -/
def GetCollectiveOpGroupMode (hasChannelId : Bool) (useGlobalDeviceIds : Option Bool) :
    Except String CollectiveOpGroupMode :=
  if hasChannelId then Except.ok CollectiveOpGroupMode.kCrossPartition
  else
    match useGlobalDeviceIds with
    | some true =>
      Except.error "invalid: use_global_device_ids is true but no channel_id is present"
    | _ => Except.ok CollectiveOpGroupMode.kCrossReplica

/-- A group-mode derivation function, abstracting what
`GetCollectiveOpGroupMode(has_channel_id, std::nullopt)` may do at the pass's
single call site (the second argument is always `std::nullopt` there). -/
abbrev GroupModeFn := Bool → Except String CollectiveOpGroupMode

/-- The derivation the shipped pass uses:
`GetCollectiveOpGroupMode(cp->channel_id().has_value(), std::nullopt)`. -/
def collectiveGroupMode : GroupModeFn := fun hasChannelId =>
  GetCollectiveOpGroupMode hasChannelId none

/-- `TryFoldColectivePermuteOfSelect` from the source (the misspelling is the
source's), parameterized by the group-mode derivation `gm`.  Returns the
updated arena together with the `changed` flag, or the propagated error. -/
def TryFoldColectivePermuteOfSelect (gm : GroupModeFn) (arena : Arena) (h : Nat) :
    Except String (Arena × Bool) :=
  match arena[h]? with
  | none => Except.ok (arena, false)
  | some inst =>
    -- Root op must be a collective-permute.
    if inst.opcode ≠ HloOpcode.kCollectivePermute then Except.ok (arena, false) else
    match inst.operands[0]? with
    | none => Except.ok (arena, false)
    | some selIdx =>
      -- Operand must be a foldable select.
      match MatchFoldableSelect arena selIdx with
      | none => Except.ok (arena, false)
      | some sm =>
        match gm inst.channelId.isSome with
        | Except.error e => Except.error e
        | Except.ok collectiveMode =>
          if collectiveMode ≠ sm.collective_mode then Except.ok (arena, false) else
          match StaticallyEvaluatePredicateForAllSourceIDs sm inst.sourceTargetPairs with
          | none => Except.ok (arena, false)
          | some pv =>
            -- Fold select and forward the correct operand.
            let newOperand := if pv then sm.true_operand else sm.false_operand
            Except.ok
              (arena.set h { inst with operands := inst.operands.set 0 newOperand }, true)

/-- The inner instruction loop of `CollectiveSelectFolder::Run` over a list of
handles, threading the arena and the accumulated `changed` flag; the first
error aborts, leaving the arena as already rewritten. -/
def runHandles (gm : GroupModeFn) (arena : Arena) (hs : List Nat) (changed : Bool) :
    Arena × Except String Bool :=
  match hs with
  | [] => (arena, Except.ok changed)
  | h :: rest =>
    match TryFoldColectivePermuteOfSelect gm arena h with
    | Except.error e => (arena, Except.error e)
    | Except.ok (arena', c) => runHandles gm arena' rest (changed || c)

/-- One computation's instruction loop: every instruction of the arena is
visited exactly once, in order. -/
def runComp (gm : GroupModeFn) (arena : Arena) : Arena × Except String Bool :=
  runHandles gm arena (List.range arena.length) false

/-- `CollectiveSelectFolder::Run`: iterate the computations, OR the per-
computation `changed` flags, abort on the first error.  The returned module
reflects the in-place mutations performed before any error. -/
def Run (gm : GroupModeFn) (m : Module) : Module × Except String Bool :=
  match m with
  | [] => ([], Except.ok false)
  | c :: rest =>
    match runComp gm c with
    | (c', Except.error e) => (c' :: rest, Except.error e)
    | (c', Except.ok cc) =>
      match Run gm rest with
      | (rest', Except.ok cr) => (c' :: rest', Except.ok (cc || cr))
      | (rest', Except.error e) => (c' :: rest', Except.error e)

/-- Instruction constructor for opcodes whose payload the pass ignores. -/
def mkI (op : HloOpcode) (ops : List Nat) : Instr :=
  ⟨op, ops, Direction.kEq, none, [], none⟩

/-- A constant instruction carrying integer `v`. -/
def mkConst (v : Int) : Instr :=
  ⟨HloOpcode.kConstant, [], Direction.kEq, some v, [], none⟩

/-- A compare instruction with the given operands and direction. -/
def mkCompare (ops : List Nat) (d : Direction) : Instr :=
  ⟨HloOpcode.kCompare, ops, d, none, [], none⟩

/-- A collective-permute instruction with data operands, source-target pairs
and channel id. -/
def mkCp (ops : List Nat) (pairs : List (Int × Int)) (ch : Option Int) : Instr :=
  ⟨HloOpcode.kCollectivePermute, ops, Direction.kEq, none, pairs, ch⟩

/-- Point-evaluation of the predicate as the spec defines it (section 4.3):
true iff the direction is equal and the source id equals the constant, or the
direction is not-equal and the source id differs from the constant. -/
def pointEvalSpec (fs : FoldableSelect) (src : Int) : Bool :=
  decide ((fs.cmp_direction = Direction.kEq ∧ src = fs.constant_id) ∨
          (fs.cmp_direction = Direction.kNe ∧ src ≠ fs.constant_id))

theorem predicateEval_eq_pointEvalSpec (fs : FoldableSelect)
    (hd : fs.cmp_direction = Direction.kEq ∨ fs.cmp_direction = Direction.kNe)
    (p : Int × Int) : predicateEval fs p = pointEvalSpec fs p.1 := by
  rcases hd with h | h <;>
    simp [predicateEval, pointEvalSpec, h] <;>
    by_cases hs : p.1 = fs.constant_id <;> simp [hs]

theorem eval_eq_some_iff (fs : FoldableSelect) (pairs : List (Int × Int)) (b : Bool) :
    StaticallyEvaluatePredicateForAllSourceIDs fs pairs = some b ↔
      (pairs ≠ [] ∧ ∀ p ∈ pairs, predicateEval fs p = b) := by
  cases pairs with
  | nil => simp [StaticallyEvaluatePredicateForAllSourceIDs]
  | cons p rest =>
    simp only [StaticallyEvaluatePredicateForAllSourceIDs]
    by_cases hall : rest.all (fun q => predicateEval fs q == predicateEval fs p) = true
    · rw [if_pos hall]
      simp only [List.all_eq_true, beq_iff_eq] at hall
      constructor
      · intro hsome
        injection hsome with hb
        subst hb
        refine ⟨by simp, ?_⟩
        intro q hq
        rcases List.mem_cons.mp hq with rfl | hq
        · rfl
        · exact hall q hq
      · rintro ⟨-, hone⟩
        have hp : predicateEval fs p = b := hone p (List.mem_cons_self p rest)
        rw [hp]
    · rw [if_neg hall]
      constructor
      · intro hsome; exact absurd hsome (by simp)
      · rintro ⟨-, hone⟩
        exfalso
        apply hall
        simp only [List.all_eq_true, beq_iff_eq]
        intro q hq
        rw [hone q (List.mem_cons_of_mem p hq), hone p (List.mem_cons_self p rest)]

/-- Claim C1: given a `FoldableSelect` record (whose comparison direction is
equal or not-equal, as the spec's record type demands) and the ordered
source-target pairs, the static evaluator returns the uniform boolean `b`
iff the table is non-empty and point-evaluation yields `b` for every source
id; it returns `none` when the table is empty or two sources disagree. -/
theorem C1_static_predicate_evaluator (fs : FoldableSelect) (pairs : List (Int × Int))
    (hd : fs.cmp_direction = Direction.kEq ∨ fs.cmp_direction = Direction.kNe) :
    (pairs = [] → StaticallyEvaluatePredicateForAllSourceIDs fs pairs = none) ∧
    (∀ b : Bool, StaticallyEvaluatePredicateForAllSourceIDs fs pairs = some b ↔
      (pairs ≠ [] ∧ ∀ p ∈ pairs, pointEvalSpec fs p.1 = b)) ∧
    ((∃ p ∈ pairs, ∃ q ∈ pairs, pointEvalSpec fs p.1 ≠ pointEvalSpec fs q.1) →
      StaticallyEvaluatePredicateForAllSourceIDs fs pairs = none) := by
  have hpoint : ∀ p : Int × Int, predicateEval fs p = pointEvalSpec fs p.1 :=
    predicateEval_eq_pointEvalSpec fs hd
  have hiff : ∀ b : Bool, StaticallyEvaluatePredicateForAllSourceIDs fs pairs = some b ↔
      (pairs ≠ [] ∧ ∀ p ∈ pairs, pointEvalSpec fs p.1 = b) := by
    intro b
    rw [eval_eq_some_iff]
    constructor
    · rintro ⟨hne, hall⟩
      exact ⟨hne, fun p hp => (hpoint p).symm.trans (hall p hp)⟩
    · rintro ⟨hne, hall⟩
      exact ⟨hne, fun p hp => (hpoint p).trans (hall p hp)⟩
  refine ⟨?_, hiff, ?_⟩
  · rintro rfl; rfl
  · rintro ⟨p, hp, q, hq, hne⟩
    cases hres : StaticallyEvaluatePredicateForAllSourceIDs fs pairs with
    | none => rfl
    | some b =>
      rcases (hiff b).mp hres with ⟨-, hall⟩
      exact absurd ((hall p hp).trans (hall q hq).symm) hne

/-- Witness for C1 at a concrete record and table. -/
theorem C1_static_predicate_evaluator_witness :
    let fs : FoldableSelect := ⟨Direction.kEq, 0, CollectiveOpGroupMode.kCrossPartition, 0, 0⟩
    let pairs : List (Int × Int) := [(0, 1), (0, 2)]
    (pairs = [] → StaticallyEvaluatePredicateForAllSourceIDs fs pairs = none) ∧
    (∀ b : Bool, StaticallyEvaluatePredicateForAllSourceIDs fs pairs = some b ↔
      (pairs ≠ [] ∧ ∀ p ∈ pairs, pointEvalSpec fs p.1 = b)) ∧
    ((∃ p ∈ pairs, ∃ q ∈ pairs, pointEvalSpec fs p.1 ≠ pointEvalSpec fs q.1) →
      StaticallyEvaluatePredicateForAllSourceIDs fs pairs = none) :=
  C1_static_predicate_evaluator
    ⟨Direction.kEq, 0, CollectiveOpGroupMode.kCrossPartition, 0, 0⟩
    [(0, 1), (0, 2)] (Or.inl rfl)

/-- The module of claim C3: a collective-permute (handle 6) over a select
(handle 5) whose predicate is `partition-id != 0`, with true branch handle 3,
false branch handle 4, routing table `[(1,0),(2,1),(3,2)]`, and a channel id
(so the collective addresses the partition space, matching the predicate). -/
def moduleC3 : Module :=
  [[mkI HloOpcode.kPartitionId [], mkConst 0, mkCompare [0, 1] Direction.kNe,
    mkI HloOpcode.kOther [], mkI HloOpcode.kOther [], mkI HloOpcode.kSelect [2, 3, 4],
    mkCp [5] [(1, 0), (2, 1), (3, 2)] (some 1)]]

/-- Claim C3: on `moduleC3` the pass replaces the collective-permute's data
operand with the true branch (handle 3) and returns `changed = true`; every
other instruction is untouched. -/
theorem C3_uniform_true_fold :
    Run collectiveGroupMode moduleC3 =
      ([[mkI HloOpcode.kPartitionId [], mkConst 0, mkCompare [0, 1] Direction.kNe,
         mkI HloOpcode.kOther [], mkI HloOpcode.kOther [], mkI HloOpcode.kSelect [2, 3, 4],
         mkCp [3] [(1, 0), (2, 1), (3, 2)] (some 1)]],
       Except.ok true) := rfl

/-- The module of claim C8: routing table `[(0,1),(1,2)]` and predicate
`partition-id == 0`; source 0 satisfies the predicate, source 1 does not. -/
def moduleC8 : Module :=
  [[mkI HloOpcode.kPartitionId [], mkConst 0, mkCompare [0, 1] Direction.kEq,
    mkI HloOpcode.kOther [], mkI HloOpcode.kOther [], mkI HloOpcode.kSelect [2, 3, 4],
    mkCp [5] [(0, 1), (1, 2)] (some 1)]]

/-- Claim C8: on `moduleC8` the sources disagree, so the pass performs no
rewrite: the module is returned unchanged with `changed = false`. -/
theorem C8_mixed_sources_no_fold :
    Run collectiveGroupMode moduleC8 = (moduleC8, Except.ok false) := rfl

/-- The arena of claim C4: a select whose compare has direction less-than. -/
def arenaC4 : Arena :=
  [mkI HloOpcode.kPartitionId [], mkConst 0, mkCompare [0, 1] Direction.kLt,
   mkI HloOpcode.kOther [], mkI HloOpcode.kOther [], mkI HloOpcode.kSelect [2, 3, 4]]

/-- Claim C4 fails on the code: `MatchFoldableSelect` copies the compare's
direction into the record without restricting it, so a less-than compare
produces a match record whose direction is outside the set claimed (and
outside what the evaluator's own debug assertion
`assert(cmp_direction == kEq || cmp_direction == kNe)` allows). -/
theorem C4_matcher_accepts_lt_direction :
    MatchFoldableSelect arenaC4 5 =
      some ⟨Direction.kLt, 0, CollectiveOpGroupMode.kCrossPartition, 3, 4⟩ ∧
    Direction.kLt ≠ Direction.kEq ∧ Direction.kLt ≠ Direction.kNe :=
  ⟨rfl, by decide, by decide⟩

/-- The module of claim C5: like `moduleC3` but the compare direction is
less-than; the pass still matches and folds it. -/
def moduleC5 : Module :=
  [[mkI HloOpcode.kPartitionId [], mkConst 0, mkCompare [0, 1] Direction.kLt,
    mkI HloOpcode.kOther [], mkI HloOpcode.kOther [], mkI HloOpcode.kSelect [2, 3, 4],
    mkCp [5] [(1, 0)] (some 1)]]

/-- Claim C5: the evaluator's predicate lambda tests only `direction == kEq`,
so every non-equal direction is evaluated exactly as not-equal (the source's
`assert` on the direction is a debug-build no-op, not a match rejection), and
a select with a less-than compare is matched and folded: on `moduleC5` the
collective-permute's operand becomes the true branch and `changed = true`. -/
theorem C5_non_eq_directions_behave_as_ne :
    (∀ (fs : FoldableSelect) (pairs : List (Int × Int)),
      fs.cmp_direction ≠ Direction.kEq →
      StaticallyEvaluatePredicateForAllSourceIDs fs pairs =
        StaticallyEvaluatePredicateForAllSourceIDs
          { fs with cmp_direction := Direction.kNe } pairs) ∧
    Run collectiveGroupMode moduleC5 =
      ([[mkI HloOpcode.kPartitionId [], mkConst 0, mkCompare [0, 1] Direction.kLt,
         mkI HloOpcode.kOther [], mkI HloOpcode.kOther [], mkI HloOpcode.kSelect [2, 3, 4],
         mkCp [3] [(1, 0)] (some 1)]],
       Except.ok true) := by
  refine ⟨?_, rfl⟩
  intro fs pairs hne
  have hpred : ∀ p : Int × Int,
      predicateEval fs p = predicateEval { fs with cmp_direction := Direction.kNe } p := by
    intro p
    simp [predicateEval, hne]
  cases pairs with
  | nil => rfl
  | cons p rest =>
    simp only [StaticallyEvaluatePredicateForAllSourceIDs, hpred]

/-- Witness for C5's universally quantified part at a concrete record. -/
theorem C5_non_eq_directions_behave_as_ne_witness :
    Direction.kLt ≠ Direction.kEq ∧
    StaticallyEvaluatePredicateForAllSourceIDs
        ⟨Direction.kLt, 0, CollectiveOpGroupMode.kCrossPartition, 3, 4⟩ [(1, 0)] =
      StaticallyEvaluatePredicateForAllSourceIDs
        ⟨Direction.kNe, 0, CollectiveOpGroupMode.kCrossPartition, 3, 4⟩ [(1, 0)] :=
  ⟨by decide,
   C5_non_eq_directions_behave_as_ne.1
     ⟨Direction.kLt, 0, CollectiveOpGroupMode.kCrossPartition, 3, 4⟩ [(1, 0)] (by decide)⟩

/-- Claim C7: when the match succeeds but the group mode derived from the
collective-permute's own metadata differs from the mode implied by the
predicate's identity op, the candidate is a no-match: the arena is unchanged,
no error is raised (`Except.ok`), and the driver's loop continues with the
next instruction exactly as if this one had been skipped. -/
theorem C7_group_mode_mismatch_is_no_match (gm : GroupModeFn) (m : Arena) (h : Nat)
    (inst : Instr) (sIdx : Nat) (sm : FoldableSelect) (mc : CollectiveOpGroupMode)
    (h1 : m[h]? = some inst) (h2 : inst.opcode = HloOpcode.kCollectivePermute)
    (h3 : inst.operands[0]? = some sIdx) (h4 : MatchFoldableSelect m sIdx = some sm)
    (h5 : gm inst.channelId.isSome = Except.ok mc) (h6 : mc ≠ sm.collective_mode) :
    TryFoldColectivePermuteOfSelect gm m h = Except.ok (m, false) ∧
    (∀ (rest : List Nat) (c₀ : Bool),
      runHandles gm m (h :: rest) c₀ = runHandles gm m rest c₀) := by
  have hfold : TryFoldColectivePermuteOfSelect gm m h = Except.ok (m, false) := by
    unfold TryFoldColectivePermuteOfSelect
    rw [h1]
    simp only [h2, h3, h4, h5, ne_eq, not_true_eq_false, if_false]
    rw [if_pos h6]
  refine ⟨hfold, ?_⟩
  intro rest c₀
  simp only [runHandles, hfold, Bool.or_false]

/-- The arena of C7's witness: predicate on replica-id, collective-permute
with a channel id (hence cross-partition addressing). -/
def arenaC7 : Arena :=
  [mkI HloOpcode.kReplicaId [], mkConst 0, mkCompare [0, 1] Direction.kEq,
   mkI HloOpcode.kOther [], mkI HloOpcode.kOther [], mkI HloOpcode.kSelect [2, 3, 4],
   mkCp [5] [(0, 1)] (some 2)]

/-- Witness for C7 at a concrete mismatching candidate. -/
theorem C7_group_mode_mismatch_is_no_match_witness :
    TryFoldColectivePermuteOfSelect collectiveGroupMode arenaC7 6 =
      Except.ok (arenaC7, false) ∧
    (∀ (rest : List Nat) (c₀ : Bool),
      runHandles collectiveGroupMode arenaC7 (6 :: rest) c₀ =
        runHandles collectiveGroupMode arenaC7 rest c₀) :=
  C7_group_mode_mismatch_is_no_match collectiveGroupMode arenaC7 6
    (mkCp [5] [(0, 1)] (some 2)) 5
    ⟨Direction.kEq, 0, CollectiveOpGroupMode.kCrossReplica, 3, 4⟩
    CollectiveOpGroupMode.kCrossPartition
    rfl rfl rfl rfl rfl (by decide)

/-- Claim C9: the matcher unwraps at most one broadcast (a doubly wrapped
compare fails the `DynCast` to a compare and is not matched), and it reads
the compare's operands in fixed order, operand 0 as the identity op and
operand 1 as the constant; the symmetric form with the constant in operand 0
is not matched.  Both outcomes are the `none` of an `Option`, not an error. -/
theorem C9_single_broadcast_and_fixed_operand_order (m : Arena) :
    (∀ (s : Nat) (sel : Instr) (p : Nat) (b₁ : Instr) (q : Nat) (b₂ : Instr),
      m[s]? = some sel → sel.opcode = HloOpcode.kSelect →
      sel.operands[0]? = some p → m[p]? = some b₁ →
      b₁.opcode = HloOpcode.kBroadcast → b₁.operands[0]? = some q →
      m[q]? = some b₂ → b₂.opcode = HloOpcode.kBroadcast →
      MatchFoldableSelect m s = none) ∧
    (∀ (s : Nat) (sel : Instr) (p : Nat) (cmp : Instr) (i j : Nat) (ci idOp : Instr),
      m[s]? = some sel → sel.opcode = HloOpcode.kSelect →
      sel.operands[0]? = some p → m[p]? = some cmp →
      cmp.opcode = HloOpcode.kCompare →
      cmp.operands[0]? = some i → m[i]? = some ci →
      ci.opcode = HloOpcode.kConstant →
      cmp.operands[1]? = some j → m[j]? = some idOp →
      (idOp.opcode = HloOpcode.kReplicaId ∨ idOp.opcode = HloOpcode.kPartitionId) →
      MatchFoldableSelect m s = none) := by
  constructor
  · intro s sel p b₁ q b₂ hs hsel hp hb₁ hbop₁ hq hb₂ hbop₂
    simp [MatchFoldableSelect, hs, hsel, hp, hb₁, hbop₁, hq, hb₂, hbop₂]
  · intro s sel p cmp i j ci idOp hs hsel hp hcmp hcop hi hci hciconst hj hid hidop
    simp [MatchFoldableSelect, hs, hsel, hp, hcmp, hcop, hi, hci, hciconst, hj, hid]

/-- Arenas for C9's witness: a doubly broadcast-wrapped compare and a
swapped-operand compare. -/
def arenaC9a : Arena :=
  [mkI HloOpcode.kPartitionId [], mkConst 0, mkCompare [0, 1] Direction.kEq,
   mkI HloOpcode.kBroadcast [2], mkI HloOpcode.kBroadcast [3],
   mkI HloOpcode.kOther [], mkI HloOpcode.kOther [], mkI HloOpcode.kSelect [4, 5, 6]]

def arenaC9b : Arena :=
  [mkConst 0, mkI HloOpcode.kPartitionId [], mkCompare [0, 1] Direction.kEq,
   mkI HloOpcode.kOther [], mkI HloOpcode.kOther [], mkI HloOpcode.kSelect [2, 3, 4]]

/-- Witness for C9 at the two concrete rejected shapes. -/
theorem C9_single_broadcast_and_fixed_operand_order_witness :
    MatchFoldableSelect arenaC9a 7 = none ∧ MatchFoldableSelect arenaC9b 5 = none :=
  ⟨(C9_single_broadcast_and_fixed_operand_order arenaC9a).1 7
      (mkI HloOpcode.kSelect [4, 5, 6]) 4 (mkI HloOpcode.kBroadcast [3]) 3
      (mkI HloOpcode.kBroadcast [2]) rfl rfl rfl rfl rfl rfl rfl rfl,
   (C9_single_broadcast_and_fixed_operand_order arenaC9b).2 5
      (mkI HloOpcode.kSelect [2, 3, 4]) 2 (mkCompare [0, 1] Direction.kEq) 0 1
      (mkConst 0) (mkI HloOpcode.kPartitionId []) rfl rfl rfl rfl rfl rfl rfl rfl rfl rfl
      (Or.inr rfl)⟩

theorem tryFold_ok_cases (gm : GroupModeFn) (m m' : Arena) (h : Nat) (c : Bool)
    (hok : TryFoldColectivePermuteOfSelect gm m h = Except.ok (m', c)) :
    (m' = m ∧ c = false) ∨
    (c = true ∧ ∃ inst selIdx sm pv,
      m[h]? = some inst ∧ inst.opcode = HloOpcode.kCollectivePermute ∧
      inst.operands[0]? = some selIdx ∧
      MatchFoldableSelect m selIdx = some sm ∧
      StaticallyEvaluatePredicateForAllSourceIDs sm inst.sourceTargetPairs = some pv ∧
      m' = m.set h { inst with operands := inst.operands.set 0 (if pv then sm.true_operand else sm.false_operand) }) := by
  unfold TryFoldColectivePermuteOfSelect at hok
  split at hok
  · simp only [Except.ok.injEq, Prod.mk.injEq] at hok
    exact Or.inl ⟨hok.1.symm, hok.2.symm⟩
  next inst hinst =>
    split at hok
    · simp only [Except.ok.injEq, Prod.mk.injEq] at hok
      exact Or.inl ⟨hok.1.symm, hok.2.symm⟩
    next hop =>
      split at hok
      · simp only [Except.ok.injEq, Prod.mk.injEq] at hok
        exact Or.inl ⟨hok.1.symm, hok.2.symm⟩
      next selIdx hsel =>
        split at hok
        · simp only [Except.ok.injEq, Prod.mk.injEq] at hok
          exact Or.inl ⟨hok.1.symm, hok.2.symm⟩
        next sm hsm =>
          split at hok
          · exact absurd hok (by simp)
          next mode hmode =>
            split at hok
            · simp only [Except.ok.injEq, Prod.mk.injEq] at hok
              exact Or.inl ⟨hok.1.symm, hok.2.symm⟩
            next hmodeeq =>
              split at hok
              · simp only [Except.ok.injEq, Prod.mk.injEq] at hok
                exact Or.inl ⟨hok.1.symm, hok.2.symm⟩
              next pv hpv =>
                simp only [Except.ok.injEq, Prod.mk.injEq] at hok
                refine Or.inr ⟨hok.2.symm, inst, selIdx, sm, pv, hinst, ?_, hsel, hsm, hpv,
                  hok.1.symm⟩
                exact not_not.mp hop

/-- Claim C10: when a fold is performed, the only mutation is the replacement
of the collective-permute's operand slot 0; the arena keeps its length (no
instruction added or removed) and every other instruction — in particular the
select itself — is unchanged, the mutated instruction differing from the old
one in no field but the operand list. -/
theorem C10_fold_mutates_only_operand_slot (gm : GroupModeFn) (m m' : Arena) (h : Nat)
    (hf : TryFoldColectivePermuteOfSelect gm m h = Except.ok (m', true)) :
    m'.length = m.length ∧
    (∀ j, j ≠ h → m'[j]? = m[j]?) ∧
    (∃ inst newOp, m[h]? = some inst ∧
      inst.opcode = HloOpcode.kCollectivePermute ∧
      m'[h]? = some { inst with operands := inst.operands.set 0 newOp }) := by
  rcases tryFold_ok_cases gm m m' h true hf with ⟨-, hc⟩ |
    ⟨-, inst, selIdx, sm, pv, h1, h2, h3, h4, h5, h6⟩
  · exact absurd hc (by decide)
  · subst h6
    have hlt : h < m.length := by
      rcases List.getElem?_eq_some_iff.mp h1 with ⟨hlt, -⟩
      exact hlt
    refine ⟨List.length_set m h _, ?_, inst,
      (if pv then sm.true_operand else sm.false_operand), h1, h2, ?_⟩
    · intro j hj
      exact List.getElem?_set_ne (fun hcontra => hj hcontra.symm)
    · rw [List.getElem?_set_self hlt]

/-- Witness arena for C10: the C3 shape. -/
def arenaC10 : Arena :=
  [mkI HloOpcode.kPartitionId [], mkConst 0, mkCompare [0, 1] Direction.kNe,
   mkI HloOpcode.kOther [], mkI HloOpcode.kOther [], mkI HloOpcode.kSelect [2, 3, 4],
   mkCp [5] [(1, 0), (2, 1), (3, 2)] (some 1)]

/-- The C10 arena after the fold. -/
def arenaC10After : Arena :=
  [mkI HloOpcode.kPartitionId [], mkConst 0, mkCompare [0, 1] Direction.kNe,
   mkI HloOpcode.kOther [], mkI HloOpcode.kOther [], mkI HloOpcode.kSelect [2, 3, 4],
   mkCp [3] [(1, 0), (2, 1), (3, 2)] (some 1)]

/-- Witness for C10 at a concrete fold. -/
theorem C10_fold_mutates_only_operand_slot_witness :
    arenaC10After.length = arenaC10.length ∧
    (∀ j, j ≠ 6 → arenaC10After[j]? = arenaC10[j]?) ∧
    (∃ inst newOp, arenaC10[6]? = some inst ∧
      inst.opcode = HloOpcode.kCollectivePermute ∧
      arenaC10After[6]? = some { inst with operands := inst.operands.set 0 newOp }) :=
  C10_fold_mutates_only_operand_slot collectiveGroupMode arenaC10 arenaC10After 6 rfl

/-- The module of C2's counterexample: the outer select's true branch
(handle 5) is itself a foldable select over the same predicate, so the first
run rewires the collective-permute onto a select again and the second run
folds once more. -/
def moduleC2cx : Module :=
  [[mkI HloOpcode.kPartitionId [], mkConst 0, mkCompare [0, 1] Direction.kNe,
    mkI HloOpcode.kOther [], mkI HloOpcode.kOther [], mkI HloOpcode.kSelect [2, 3, 4],
    mkI HloOpcode.kOther [], mkI HloOpcode.kSelect [2, 5, 6],
    mkCp [7] [(1, 0)] (some 1)]]

/-- Claim C2 fails on the code: on `moduleC2cx` the second application of the
pass reports `changed = true` and returns a module different from its input,
so the pass is not idempotent. -/
theorem C2_second_run_changes_counterexample :
    (Run collectiveGroupMode (Run collectiveGroupMode moduleC2cx).1).2 = Except.ok true ∧
    (Run collectiveGroupMode (Run collectiveGroupMode moduleC2cx).1).1 ≠
      (Run collectiveGroupMode moduleC2cx).1 := by
  constructor
  · rfl
  · decide

theorem runHandles_append (gm : GroupModeFn) (l₂ : List Nat) :
    ∀ (l₁ : List Nat) (m : Arena) (ch : Bool),
      runHandles gm m (l₁ ++ l₂) ch =
        match runHandles gm m l₁ ch with
        | (m', Except.ok ch') => runHandles gm m' l₂ ch'
        | (m', Except.error e) => (m', Except.error e) := by
  intro l₁
  induction l₁ with
  | nil => intro m ch; rfl
  | cons h rest ih =>
    intro m ch
    simp only [List.cons_append, runHandles]
    cases htf : TryFoldColectivePermuteOfSelect gm m h with
    | error e => rfl
    | ok p => exact ih p.1 (ch || p.2)

/-- Claim C6: if, at some candidate reached by the driver, the match succeeds
and deriving the collective-permute's own group mode fails, the whole pass
invocation returns that error immediately: the instruction loop stops with
the module exactly as rewritten so far, and at module level the remaining
computations are not visited.  The derivation function is the spec-modelled
`GetCollectiveOpGroupMode`, abstracted here as an arbitrary `gm` because the
repository does not contain its definition. -/
theorem C6_group_mode_error_aborts_pass (gm : GroupModeFn) :
    (∀ (m m₁ : Arena) (hs₁ hs₂ : List Nat) (h : Nat) (ch₁ : Bool) (inst : Instr)
        (sIdx : Nat) (sm : FoldableSelect) (e : String),
      runHandles gm m hs₁ false = (m₁, Except.ok ch₁) →
      m₁[h]? = some inst → inst.opcode = HloOpcode.kCollectivePermute →
      inst.operands[0]? = some sIdx → MatchFoldableSelect m₁ sIdx = some sm →
      gm inst.channelId.isSome = Except.error e →
      runHandles gm m (hs₁ ++ h :: hs₂) false = (m₁, Except.error e)) ∧
    (∀ (c c' : Arena) (rest : Module) (e : String),
      runComp gm c = (c', Except.error e) →
      Run gm (c :: rest) = (c' :: rest, Except.error e)) := by
  constructor
  · intro m m₁ hs₁ hs₂ h ch₁ inst sIdx sm e hrun h1 h2 h3 h4 h5
    have herr : TryFoldColectivePermuteOfSelect gm m₁ h = Except.error e := by
      unfold TryFoldColectivePermuteOfSelect
      rw [h1]
      simp only [h2, h3, h4, h5, ne_eq, not_true_eq_false, if_false]
    rw [runHandles_append gm (h :: hs₂) hs₁ m false, hrun]
    simp only [runHandles, herr]
  · intro c c' rest e hcomp
    unfold Run
    rw [hcomp]

/-- A group-mode derivation that reports the malformed configuration the spec
describes; used to witness C6. -/
def gmContradictory : GroupModeFn := fun _ =>
  Except.error "contradictory channel-id and override-flag combination"

/-- The arena of C6's witness: a well-shaped foldable candidate at handle 6. -/
def arenaC6 : Arena :=
  [mkI HloOpcode.kPartitionId [], mkConst 0, mkCompare [0, 1] Direction.kNe,
   mkI HloOpcode.kOther [], mkI HloOpcode.kOther [], mkI HloOpcode.kSelect [2, 3, 4],
   mkCp [5] [(1, 0)] (some 1)]

/-- Witness for C6: with a failing group-mode derivation the loop aborts at
the candidate with the module untouched, and `Run` propagates the error past
the remaining computations. -/
theorem C6_group_mode_error_aborts_pass_witness :
    runHandles gmContradictory arenaC6 [6] false =
      (arenaC6, Except.error "contradictory channel-id and override-flag combination") ∧
    Run gmContradictory [arenaC6] =
      ([arenaC6], Except.error "contradictory channel-id and override-flag combination") :=
  ⟨(C6_group_mode_error_aborts_pass gmContradictory).1 arenaC6 arenaC6 [] [] 6 false
      (mkCp [5] [(1, 0)] (some 1)) 5
      ⟨Direction.kNe, 0, CollectiveOpGroupMode.kCrossPartition, 3, 4⟩
      "contradictory channel-id and override-flag combination"
      rfl rfl rfl rfl rfl rfl,
   (C6_group_mode_error_aborts_pass gmContradictory).2 arenaC6 arenaC6 []
      "contradictory channel-id and override-flag combination" rfl⟩

/-- The pass only ever rewrites operand lists of collective-permute
instructions.  `stableInstr a b` says entry `b` can evolve from entry `a`
under such rewrites: the opcode is unchanged, and any instruction that is not
a collective-permute is unchanged entirely. -/
def stableInstr (a b : Instr) : Prop :=
  b.opcode = a.opcode ∧ (a.opcode ≠ HloOpcode.kCollectivePermute → b = a)

/-- Arena evolution under the pass's rewrites: same length, and every entry
evolves per `stableInstr`. -/
def stable (m m' : Arena) : Prop :=
  m.length = m'.length ∧
  ∀ (j : Nat) (a : Instr), m[j]? = some a → ∃ b, m'[j]? = some b ∧ stableInstr a b

theorem stable_refl (m : Arena) : stable m m :=
  ⟨rfl, fun _ a h => ⟨a, h, rfl, fun _ => rfl⟩⟩

theorem stable_trans {m₁ m₂ m₃ : Arena} (h12 : stable m₁ m₂) (h23 : stable m₂ m₃) :
    stable m₁ m₃ := by
  refine ⟨h12.1.trans h23.1, ?_⟩
  intro j a ha
  obtain ⟨b, hb, hob, heb⟩ := h12.2 j a ha
  obtain ⟨c, hc, hoc, hec⟩ := h23.2 j b hb
  refine ⟨c, hc, hoc.trans hob, ?_⟩
  intro hncp
  have hba : b = a := heb hncp
  subst hba
  exact (hec (hob.symm ▸ hncp)).trans rfl

theorem stable_none {m m' : Arena} (hst : stable m m') {j : Nat} (hj : m[j]? = none) :
    m'[j]? = none := by
  rw [List.getElem?_eq_none_iff] at hj ⊢
  have hlen := hst.1
  omega

theorem stable_set (m : Arena) (h : Nat) (inst : Instr) (ops : List Nat)
    (hm : m[h]? = some inst) (hcp : inst.opcode = HloOpcode.kCollectivePermute) :
    stable m (m.set h { inst with operands := ops }) := by
  refine ⟨(List.length_set m h _).symm, ?_⟩
  intro j a ha
  by_cases hj : j = h
  · subst hj
    rw [hm] at ha
    injection ha with ha
    subst ha
    have hlt : j < m.length := by
      rcases List.getElem?_eq_some_iff.mp hm with ⟨hlt, -⟩
      exact hlt
    refine ⟨{ inst with operands := ops }, ?_, rfl, ?_⟩
    · rw [List.getElem?_set_self hlt]
    · intro hncp
      exact absurd hcp hncp
  · rw [List.getElem?_set_ne (Ne.symm hj)]
    exact ⟨a, ha, rfl, fun _ => rfl⟩

theorem match_stable {m m' : Arena} (hst : stable m m') (s : Nat) :
    MatchFoldableSelect m' s = MatchFoldableSelect m s := by
  unfold MatchFoldableSelect
  cases hs : m[s]? with
  | none => rw [stable_none hst hs]
  | some sel =>
    obtain ⟨sel', hs', hop, heq⟩ := hst.2 s sel hs
    rw [hs']
    dsimp only
    rw [hop]
    by_cases hksel : sel.opcode = HloOpcode.kSelect
    · have hsel' : sel' = sel := heq (by rw [hksel]; exact (by decide))
      subst sel'
      rw [if_neg (not_not_intro hksel), if_neg (not_not_intro hksel)]
      cases hp : sel.operands[0]? with
      | none => rfl
      | some pIdx =>
        dsimp only
        cases hP : m[pIdx]? with
        | none => rw [stable_none hst hP]
        | some p0 =>
          obtain ⟨p0', hp0', hop0, heq0⟩ := hst.2 pIdx p0 hP
          rw [hp0']
          dsimp only
          rw [hop0]
          by_cases hb : p0.opcode = HloOpcode.kBroadcast
          · have hp0eq : p0' = p0 := heq0 (by rw [hb]; exact (by decide))
            subst p0'
            rw [if_pos hb]
            cases hq : p0.operands[0]? with
            | none => rfl
            | some cmpIdx =>
              dsimp only
              cases hC : m[cmpIdx]? with
              | none => rw [stable_none hst hC]
              | some cmp =>
                obtain ⟨cmp', hc', hocmp, heqc⟩ := hst.2 cmpIdx cmp hC
                rw [hc']
                dsimp only
                rw [hocmp]
                by_cases hcc : cmp.opcode = HloOpcode.kCompare
                · have hcmpeq : cmp' = cmp := heqc (by rw [hcc]; exact (by decide))
                  subst cmp'
                  rw [if_neg (not_not_intro hcc), if_neg (not_not_intro hcc)]
                  cases h0 : cmp.operands[0]? with
                  | none => cases h1 : cmp.operands[1]? <;> rfl
                  | some idIdx =>
                    cases h1 : cmp.operands[1]? with
                    | none => rfl
                    | some cIdx =>
                      dsimp only
                      cases hI : m[idIdx]? with
                      | none => rw [stable_none hst hI]
                      | some idOp =>
                        obtain ⟨idOp', hid', hoid, -⟩ := hst.2 idIdx idOp hI
                        rw [hid']
                        cases hCc : m[cIdx]? with
                        | none => rw [stable_none hst hCc]
                        | some constOp =>
                          obtain ⟨constOp', hco', hocon, heqco⟩ := hst.2 cIdx constOp hCc
                          rw [hco']
                          dsimp only
                          rw [hoid, hocon]
                          cases hmode : (if idOp.opcode = HloOpcode.kReplicaId then
                              some CollectiveOpGroupMode.kCrossReplica
                            else if idOp.opcode = HloOpcode.kPartitionId then
                              some CollectiveOpGroupMode.kCrossPartition
                            else none) with
                          | none => rfl
                          | some mode =>
                            dsimp only
                            by_cases hconst : constOp.opcode = HloOpcode.kConstant
                            · have hcoeq : constOp' = constOp :=
                                heqco (by rw [hconst]; exact (by decide))
                              subst constOp'
                              rfl
                            · rw [if_pos hconst, if_pos hconst]
                · rw [if_pos hcc, if_pos hcc]
          · rw [if_neg hb, if_neg hb]
            dsimp only
            rw [hP, hp0']
            dsimp only
            rw [hop0]
            by_cases hcc : p0.opcode = HloOpcode.kCompare
            · have hcmpeq : p0' = p0 := heq0 (by rw [hcc]; exact (by decide))
              subst p0'
              rw [if_neg (not_not_intro hcc), if_neg (not_not_intro hcc)]
              cases h0 : p0.operands[0]? with
              | none => cases h1 : p0.operands[1]? <;> rfl
              | some idIdx =>
                cases h1 : p0.operands[1]? with
                | none => rfl
                | some cIdx =>
                  dsimp only
                  cases hI : m[idIdx]? with
                  | none => rw [stable_none hst hI]
                  | some idOp =>
                    obtain ⟨idOp', hid', hoid, -⟩ := hst.2 idIdx idOp hI
                    rw [hid']
                    cases hCc : m[cIdx]? with
                    | none => rw [stable_none hst hCc]
                    | some constOp =>
                      obtain ⟨constOp', hco', hocon, heqco⟩ := hst.2 cIdx constOp hCc
                      rw [hco']
                      dsimp only
                      rw [hoid, hocon]
                      cases hmode : (if idOp.opcode = HloOpcode.kReplicaId then
                          some CollectiveOpGroupMode.kCrossReplica
                        else if idOp.opcode = HloOpcode.kPartitionId then
                          some CollectiveOpGroupMode.kCrossPartition
                        else none) with
                      | none => rfl
                      | some mode =>
                        dsimp only
                        by_cases hconst : constOp.opcode = HloOpcode.kConstant
                        · have hcoeq : constOp' = constOp :=
                            heqco (by rw [hconst]; exact (by decide))
                          subst constOp'
                          rfl
                        · rw [if_pos hconst, if_pos hconst]
            · rw [if_pos hcc, if_pos hcc]
    · rw [if_pos hksel, if_pos hksel]

theorem tryFold_false_stable (gm : GroupModeFn) {m m' : Arena} (h : Nat)
    (hst : stable m m') (hh : m'[h]? = m[h]?)
    (hf : TryFoldColectivePermuteOfSelect gm m h = Except.ok (m, false)) :
    TryFoldColectivePermuteOfSelect gm m' h = Except.ok (m', false) := by
  unfold TryFoldColectivePermuteOfSelect at hf ⊢
  rw [hh]
  cases hmh : m[h]? with
  | none => rfl
  | some inst =>
    rw [hmh] at hf
    dsimp only at hf ⊢
    by_cases hcp : inst.opcode = HloOpcode.kCollectivePermute
    · rw [if_neg (not_not_intro hcp)] at hf ⊢
      cases hop0 : inst.operands[0]? with
      | none => rfl
      | some selIdx =>
        rw [hop0] at hf
        dsimp only at hf ⊢
        rw [match_stable hst selIdx]
        cases hmm : MatchFoldableSelect m selIdx with
        | none => rfl
        | some sm =>
          rw [hmm] at hf
          dsimp only at hf ⊢
          cases hgm : gm inst.channelId.isSome with
          | error e =>
            rw [hgm] at hf
            exact absurd hf (by simp)
          | ok mode =>
            rw [hgm] at hf
            dsimp only at hf ⊢
            by_cases hmode : mode ≠ sm.collective_mode
            · rw [if_pos hmode]
            · rw [if_neg hmode] at hf ⊢
              cases hev : StaticallyEvaluatePredicateForAllSourceIDs sm
                  inst.sourceTargetPairs with
              | none => rfl
              | some pv =>
                rw [hev] at hf
                dsimp only at hf
                simp only [Except.ok.injEq, Prod.mk.injEq] at hf
                exact absurd hf.2 (by decide)
    · rw [if_pos hcp]

theorem match_some_inv {m : Arena} {s : Nat} {sm : FoldableSelect}
    (hm : MatchFoldableSelect m s = some sm) :
    ∃ sel, m[s]? = some sel ∧ sel.opcode = HloOpcode.kSelect ∧
      sel.operands[1]? = some sm.true_operand ∧
      sel.operands[2]? = some sm.false_operand := by
  unfold MatchFoldableSelect at hm
  split at hm
  · exact Option.noConfusion hm
  next sel hsel =>
    split at hm
    · exact Option.noConfusion hm
    next hksel =>
      split at hm
      · exact Option.noConfusion hm
      next pIdx hp =>
        split at hm
        · exact Option.noConfusion hm
        next p0 hp0 =>
          split at hm
          · exact Option.noConfusion hm
          next cmpIdx hcmpIdx =>
            split at hm
            · exact Option.noConfusion hm
            next cmp hcmp =>
              split at hm
              · exact Option.noConfusion hm
              next hkcmp =>
                split at hm
                next idIdx cIdx h0 h1 =>
                  split at hm
                  next idOp constOp hIdOp hConstOp =>
                    split at hm
                    · exact Option.noConfusion hm
                    next mode hmode =>
                      split at hm
                      · exact Option.noConfusion hm
                      next hkconst =>
                        split at hm
                        · exact Option.noConfusion hm
                        next cid hcid =>
                          split at hm
                          next tIdx fIdx ht hf2 =>
                            injection hm with hm
                            subst hm
                            exact ⟨sel, hsel, not_not.mp hksel, ht, hf2⟩
                          next hcatch => exact Option.noConfusion hm
                  next hcatch => exact Option.noConfusion hm
                next hcatch => exact Option.noConfusion hm

theorem tryFold_error_inv (gm : GroupModeFn) (m : Arena) (h : Nat) (e : String)
    (herr : TryFoldColectivePermuteOfSelect gm m h = Except.error e) :
    ∃ inst, m[h]? = some inst ∧ gm inst.channelId.isSome = Except.error e := by
  unfold TryFoldColectivePermuteOfSelect at herr
  split at herr
  · exact Except.noConfusion herr
  next inst hinst =>
    split at herr
    · exact Except.noConfusion herr
    next hcp =>
      split at herr
      · exact Except.noConfusion herr
      next selIdx hsel =>
        split at herr
        · exact Except.noConfusion herr
        next sm hsm =>
          split at herr
          next e' hgm =>
            injection herr with he
            subst he
            exact ⟨inst, hinst, hgm⟩
          next mode hgm =>
            split at herr
            · exact Except.noConfusion herr
            · split at herr <;> exact Except.noConfusion herr

/-- True when handle `j` does not name a select instruction of `m`. -/
def branchNotSelect (m : Arena) (j : Nat) : Bool :=
  match m[j]? with
  | some b => b.opcode != HloOpcode.kSelect
  | none => true

/-- True when an optional operand handle does not name a select. -/
def branchOk (m : Arena) (o : Option Nat) : Bool :=
  match o with
  | some j => branchNotSelect m j
  | none => true

/-- No select instruction of the arena has a select instruction as its true
or false operand.  This is the side condition under which the pass is
idempotent (claim C2, amended). -/
def noNestedSelect (m : Arena) : Bool :=
  m.all fun a =>
    a.opcode != HloOpcode.kSelect ||
    (branchOk m a.operands[1]? && branchOk m a.operands[2]?)

theorem branchNotSelect_stable {m m' : Arena} (hst : stable m m') {j : Nat}
    (h : branchNotSelect m j = true) : branchNotSelect m' j = true := by
  unfold branchNotSelect at h ⊢
  cases hj : m[j]? with
  | none => rw [stable_none hst hj]
  | some b =>
    rw [hj] at h
    obtain ⟨b', hb', hob, -⟩ := hst.2 j b hj
    rw [hb']
    dsimp only at h ⊢
    rw [hob]
    exact h

theorem branchNotSelect_spec {m : Arena} {j : Nat} (h : branchNotSelect m j = true) :
    ∀ b, m[j]? = some b → b.opcode ≠ HloOpcode.kSelect := by
  intro b hb
  unfold branchNotSelect at h
  rw [hb] at h
  dsimp only at h
  exact bne_iff_ne.mp h

theorem branchOk_stable {m m' : Arena} (hst : stable m m') {o : Option Nat}
    (h : branchOk m o = true) : branchOk m' o = true := by
  cases o with
  | none => rfl
  | some j => exact branchNotSelect_stable hst h

theorem noNestedSelect_branches {m : Arena} (hn : noNestedSelect m = true)
    {sel : Instr} (hmem : sel ∈ m) (hsel : sel.opcode = HloOpcode.kSelect) :
    branchOk m sel.operands[1]? = true ∧ branchOk m sel.operands[2]? = true := by
  rw [noNestedSelect, List.all_eq_true] at hn
  have h := hn sel hmem
  rw [Bool.or_eq_true, Bool.and_eq_true] at h
  rcases h with h | h
  · exact absurd hsel (bne_iff_ne.mp h)
  · exact h

theorem noNestedSelect_stable {m m' : Arena} (hst : stable m m')
    (hn : noNestedSelect m = true) : noNestedSelect m' = true := by
  rw [noNestedSelect, List.all_eq_true]
  intro a' ha'
  obtain ⟨j, hj⟩ := List.mem_iff_getElem?.mp ha'
  have hjm : j < m.length := by
    have := (List.getElem?_eq_some_iff.mp hj).1
    have hlen := hst.1
    omega
  obtain ⟨a, ha⟩ : ∃ a, m[j]? = some a :=
    ⟨m.get ⟨j, hjm⟩, (List.getElem?_eq_some_iff.mpr ⟨hjm, rfl⟩)⟩
  obtain ⟨b, hb, hob, heb⟩ := hst.2 j a ha
  have hba' : b = a' := by
    rw [hb] at hj
    injection hj
  subst hba'
  rw [Bool.or_eq_true]
  by_cases hsel : b.opcode = HloOpcode.kSelect
  · right
    have haop : a.opcode = HloOpcode.kSelect := by rw [← hob]; exact hsel
    have hab : b = a := heb (by rw [haop]; exact (by decide))
    subst hab
    have hmem : b ∈ m := List.mem_iff_getElem?.mpr ⟨j, ha⟩
    obtain ⟨h1, h2⟩ := noNestedSelect_branches hn hmem haop
    rw [Bool.and_eq_true]
    exact ⟨branchOk_stable hst h1, branchOk_stable hst h2⟩
  · left
    exact bne_iff_ne.mpr hsel

theorem tryFold_no_select (gm : GroupModeFn) (m : Arena) (h : Nat) (inst : Instr)
    (hm : m[h]? = some inst) (hcp : inst.opcode = HloOpcode.kCollectivePermute)
    (sIdx : Nat) (hop : inst.operands[0]? = some sIdx)
    (hns : ∀ b, m[sIdx]? = some b → b.opcode ≠ HloOpcode.kSelect) :
    TryFoldColectivePermuteOfSelect gm m h = Except.ok (m, false) := by
  have hmatch : MatchFoldableSelect m sIdx = none := by
    unfold MatchFoldableSelect
    cases hb : m[sIdx]? with
    | none => rfl
    | some b =>
      dsimp only
      rw [if_pos (hns b hb)]
  unfold TryFoldColectivePermuteOfSelect
  rw [hm]
  dsimp only
  rw [if_neg (not_not_intro hcp), hop]
  dsimp only
  rw [hmatch]

theorem runHandles_outside (gm : GroupModeFn) :
    ∀ (hs : List Nat) (m m₁ : Arena) (ch : Bool) (r : Except String Bool),
      runHandles gm m hs ch = (m₁, r) → ∀ j, j ∉ hs → m₁[j]? = m[j]? := by
  intro hs
  induction hs with
  | nil =>
    intro m m₁ ch r hr j _
    simp only [runHandles, Prod.mk.injEq] at hr
    rw [← hr.1]
  | cons h rest ih =>
    intro m m₁ ch r hr j hj
    have hjh : j ≠ h := fun hc => hj (hc ▸ List.mem_cons_self h rest)
    have hjrest : j ∉ rest := fun hc => hj (List.mem_cons_of_mem h hc)
    simp only [runHandles] at hr
    cases htf : TryFoldColectivePermuteOfSelect gm m h with
    | error e =>
      rw [htf] at hr
      simp only [Prod.mk.injEq] at hr
      rw [← hr.1]
    | ok p =>
      rw [htf] at hr
      dsimp only at hr
      have hstep : p.1[j]? = m[j]? := by
        rcases tryFold_ok_cases gm m p.1 h p.2 (by rw [htf]) with ⟨hm', -⟩ |
          ⟨-, inst, selIdx, sm, pv, h1, h2, h3, h4, h5, h6⟩
        · rw [hm']
        · rw [h6]
          exact List.getElem?_set_ne (Ne.symm hjh)
      rw [ih p.1 m₁ (ch || p.2) r hr j hjrest, hstep]

theorem runHandles_all_false (gm : GroupModeFn) :
    ∀ (hs : List Nat) (m : Arena) (ch : Bool),
      (∀ h ∈ hs, TryFoldColectivePermuteOfSelect gm m h = Except.ok (m, false)) →
      runHandles gm m hs ch = (m, Except.ok ch) := by
  intro hs
  induction hs with
  | nil => intro m ch _; rfl
  | cons h rest ih =>
    intro m ch hall
    have hh := hall h (List.mem_cons_self h rest)
    simp only [runHandles, hh]
    rw [Bool.or_false]
    exact ih m ch (fun h' hh' => hall h' (List.mem_cons_of_mem h hh'))

theorem runHandles_second_pass (gm : GroupModeFn) :
    ∀ (hs : List Nat) (m m₁ : Arena) (ch₀ ch₁ : Bool),
      hs.Nodup → noNestedSelect m = true →
      runHandles gm m hs ch₀ = (m₁, Except.ok ch₁) →
      stable m m₁ ∧ noNestedSelect m₁ = true ∧
      ∀ h ∈ hs, TryFoldColectivePermuteOfSelect gm m₁ h = Except.ok (m₁, false) := by
  intro hs
  induction hs with
  | nil =>
    intro m m₁ ch₀ ch₁ _ hn hr
    simp only [runHandles, Prod.mk.injEq] at hr
    obtain ⟨hm, -⟩ := hr
    subst hm
    exact ⟨stable_refl m, hn, by simp⟩
  | cons h rest ih =>
    intro m m₁ ch₀ ch₁ hnd hn hr
    have hnd_rest : rest.Nodup := (List.nodup_cons.mp hnd).2
    have hh_not : h ∉ rest := (List.nodup_cons.mp hnd).1
    simp only [runHandles] at hr
    cases htf : TryFoldColectivePermuteOfSelect gm m h with
    | error e =>
      rw [htf] at hr
      exact absurd hr (by simp)
    | ok p =>
      rw [htf] at hr
      dsimp only at hr
      rcases tryFold_ok_cases gm m p.1 h p.2 (by rw [htf]) with ⟨hm', hc⟩ |
        ⟨hc, inst, selIdx, sm, pv, h1, h2, h3, h4, h5, h6⟩
      · rw [hm'] at hr
        obtain ⟨hst, hn₁, hrest⟩ := ih m m₁ (ch₀ || p.2) ch₁ hnd_rest hn hr
        refine ⟨hst, hn₁, ?_⟩
        intro h' hh'
        rcases List.mem_cons.mp hh' with rfl | hmem
        · have hout : m₁[h']? = m[h']? :=
            runHandles_outside gm rest m m₁ (ch₀ || p.2) (Except.ok ch₁) hr h' hh_not
          have hfmf : TryFoldColectivePermuteOfSelect gm m h' = Except.ok (m, false) := by
            rw [htf, ← hm', ← hc]
          exact tryFold_false_stable gm h' hst hout hfmf
        · exact hrest h' hmem
      · have hst1 : stable m p.1 := by
          rw [h6]
          exact stable_set m h inst _ h1 h2
        have hn1 : noNestedSelect p.1 = true := noNestedSelect_stable hst1 hn
        obtain ⟨hst2, hn₁, hrest⟩ := ih p.1 m₁ (ch₀ || p.2) ch₁ hnd_rest hn1 hr
        have hst : stable m m₁ := stable_trans hst1 hst2
        refine ⟨hst, hn₁, ?_⟩
        intro h' hh'
        rcases List.mem_cons.mp hh' with rfl | hmem
        · have hout : m₁[h']? = p.1[h']? :=
            runHandles_outside gm rest p.1 m₁ (ch₀ || p.2) (Except.ok ch₁) hr h' hh_not
          have hlt : h' < m.length := (List.getElem?_eq_some_iff.mp h1).1
          have hm₁h : m₁[h']? = some { inst with operands := inst.operands.set 0 (if pv then sm.true_operand else sm.false_operand) } := by
            rw [hout, h6]
            exact List.getElem?_set_self hlt
          have hoplen : 0 < inst.operands.length := by
            have := (List.getElem?_eq_some_iff.mp h3).1
            omega
          have hnewop : (inst.operands.set 0
              (if pv then sm.true_operand else sm.false_operand))[0]? =
              some (if pv then sm.true_operand else sm.false_operand) := by
            have h0lt : 0 < (inst.operands.set 0
                (if pv then sm.true_operand else sm.false_operand)).length := by
              rw [List.length_set]
              exact hoplen
            rw [List.getElem?_set_self (by rw [List.length_set] at h0lt; exact h0lt)]
          obtain ⟨sel, hsel, hselop, ht, hf2⟩ := match_some_inv h4
          have hmem : sel ∈ m := List.mem_iff_getElem?.mpr ⟨selIdx, hsel⟩
          obtain ⟨hbr1, hbr2⟩ := noNestedSelect_branches hn hmem hselop
          have hbns : branchNotSelect m (if pv then sm.true_operand else sm.false_operand)
              = true := by
            cases pv with
            | true =>
              rw [if_pos rfl]
              rw [ht] at hbr1
              exact hbr1
            | false =>
              rw [if_neg (by decide)]
              rw [hf2] at hbr2
              exact hbr2
          have hbns₁ : branchNotSelect m₁ (if pv then sm.true_operand else sm.false_operand)
              = true := branchNotSelect_stable hst hbns
          exact tryFold_no_select gm m₁ h'
            { inst with operands := inst.operands.set 0 (if pv then sm.true_operand else sm.false_operand) }
            hm₁h h2 (if pv then sm.true_operand else sm.false_operand) hnewop
            (branchNotSelect_spec hbns₁)
        · exact hrest h' hmem

theorem collectiveGroupMode_ok (b : Bool) :
    ∃ mo, collectiveGroupMode b = Except.ok mo := by
  cases b
  · exact ⟨CollectiveOpGroupMode.kCrossReplica, rfl⟩
  · exact ⟨CollectiveOpGroupMode.kCrossPartition, rfl⟩

theorem tryFold_collective_no_error (m : Arena) (h : Nat) (e : String) :
    TryFoldColectivePermuteOfSelect collectiveGroupMode m h ≠ Except.error e := by
  intro herr
  obtain ⟨inst, -, hgm⟩ := tryFold_error_inv collectiveGroupMode m h e herr
  obtain ⟨mo, hok⟩ := collectiveGroupMode_ok inst.channelId.isSome
  rw [hok] at hgm
  exact Except.noConfusion hgm

theorem runHandles_collective_ok :
    ∀ (hs : List Nat) (m : Arena) (ch : Bool),
      ∃ m₁ ch₁, runHandles collectiveGroupMode m hs ch = (m₁, Except.ok ch₁) := by
  intro hs
  induction hs with
  | nil => intro m ch; exact ⟨m, ch, rfl⟩
  | cons h rest ih =>
    intro m ch
    cases htf : TryFoldColectivePermuteOfSelect collectiveGroupMode m h with
    | error e => exact absurd htf (tryFold_collective_no_error m h e)
    | ok p =>
      obtain ⟨m₁, ch₁, hr⟩ := ih p.1 (ch || p.2)
      refine ⟨m₁, ch₁, ?_⟩
      simp only [runHandles, htf]
      exact hr

theorem runComp_second (m m₁ : Arena) (ch : Bool) (hn : noNestedSelect m = true)
    (hr : runComp collectiveGroupMode m = (m₁, Except.ok ch)) :
    runComp collectiveGroupMode m₁ = (m₁, Except.ok false) := by
  obtain ⟨hst, -, hall⟩ := runHandles_second_pass collectiveGroupMode
    (List.range m.length) m m₁ false ch (List.nodup_range m.length) hn hr
  unfold runComp
  have hlen : m₁.length = m.length := hst.1.symm
  rw [hlen]
  exact runHandles_all_false collectiveGroupMode (List.range m.length) m₁ false hall

theorem Run_collective_ok (M : Module) :
    ∃ M₁ ch, Run collectiveGroupMode M = (M₁, Except.ok ch) := by
  induction M with
  | nil => exact ⟨[], false, rfl⟩
  | cons c rest ih =>
    obtain ⟨rest', cr, hrest⟩ := ih
    obtain ⟨c₁, cc, hc⟩ := runHandles_collective_ok (List.range c.length) c false
    have hcomp : runComp collectiveGroupMode c = (c₁, Except.ok cc) := hc
    refine ⟨c₁ :: rest', cc || cr, ?_⟩
    simp only [Run, hcomp, hrest]

theorem Run_second_pass (M M₁ : Module) (ch : Bool)
    (hn : ∀ c ∈ M, noNestedSelect c = true)
    (hr : Run collectiveGroupMode M = (M₁, Except.ok ch)) :
    Run collectiveGroupMode M₁ = (M₁, Except.ok false) := by
  induction M generalizing M₁ ch with
  | nil =>
    simp only [Run, Prod.mk.injEq, Except.ok.injEq] at hr
    obtain ⟨hm, -⟩ := hr
    subst hm
    rfl
  | cons c rest ih =>
    obtain ⟨c₁, cc, hcomp⟩ := runHandles_collective_ok (List.range c.length) c false
    have hcomp' : runComp collectiveGroupMode c = (c₁, Except.ok cc) := hcomp
    obtain ⟨rest', cr, hrest⟩ := Run_collective_ok rest
    rw [show Run collectiveGroupMode (c :: rest) =
        (c₁ :: rest', Except.ok (cc || cr)) by simp only [Run, hcomp', hrest]] at hr
    simp only [Prod.mk.injEq, Except.ok.injEq] at hr
    obtain ⟨hm, -⟩ := hr
    subst hm
    have hc₁ : runComp collectiveGroupMode c₁ = (c₁, Except.ok false) :=
      runComp_second c c₁ cc (hn c (List.mem_cons_self c rest)) hcomp'
    have hrest' : Run collectiveGroupMode rest' = (rest', Except.ok false) :=
      ih rest' cr (fun d hd => hn d (List.mem_cons_of_mem c hd)) hrest
    simp only [Run, hc₁, hrest', Bool.or_self]

/-- Claim C2, amended: the pass is idempotent on every module in which no
select instruction has a select instruction as its true or false branch.
(Without that side condition the first run can rewire a collective-permute
onto a nested foldable select, which the second run folds again — see the
counterexample.)  The second application returns the module unchanged with
`changed = false`. -/
theorem C2_idempotent_without_nested_selects (M : Module)
    (hn : ∀ c ∈ M, noNestedSelect c = true) :
    Run collectiveGroupMode (Run collectiveGroupMode M).1 =
      ((Run collectiveGroupMode M).1, Except.ok false) := by
  obtain ⟨M₁, ch, hr⟩ := Run_collective_ok M
  rw [hr]
  exact Run_second_pass M M₁ ch hn hr

/-- Witness module for the amended C2. -/
def moduleC2w : Module :=
  [[mkI HloOpcode.kPartitionId [], mkConst 0, mkCompare [0, 1] Direction.kNe,
    mkI HloOpcode.kOther [], mkI HloOpcode.kOther [], mkI HloOpcode.kSelect [2, 3, 4],
    mkCp [5] [(1, 0), (2, 1)] (some 1)]]

/-- Witness for the amended C2 at a concrete module that satisfies the side
condition. -/
theorem C2_idempotent_without_nested_selects_witness :
    (∀ c ∈ moduleC2w, noNestedSelect c = true) ∧
    Run collectiveGroupMode (Run collectiveGroupMode moduleC2w).1 =
      ((Run collectiveGroupMode moduleC2w).1, Except.ok false) :=
  ⟨by decide, C2_idempotent_without_nested_selects moduleC2w (by decide)⟩

end CollectiveSelectFolderModel
